import Mathlib

/-!
Shallow embedding of the apt backend of syspkg (src/manager/apt/apt.go):
the command builder (argument lists, environment, execution mode), the
result handling of each operation, and the output parsers, together with
theorems settling the specification's claims about them.

The Go functions shell out via exec.Command; here each operation is split
into an `ExecPlan` (binary, argument list, environment, captured vs
streamed mode — exactly what the Go code hands to exec.Command before
running it) and a run function from an abstract `ExecResult` (the stdout
text and the optional execution error the child produced) to the Go
function's return values.
-/

namespace Syspkg

/-- Modelled from the spec: the `manager.Options` configuration value
(the `manager` package is not under src/); three independent boolean
flags.  A Go `*manager.Options` (nilable) is modelled as `Option Options`. -/
structure Options where
  dryRun : Bool
  interactive : Bool
  verbose : Bool
  deriving DecidableEq, Repr

/-- Modelled from the spec: the status field of `PackageInfo`
(installed / upgradable / available / removed), with `unknown` for the
Go zero value. -/
inductive PackageStatus where
  | unknown
  | installed
  | upgradable
  | available
  | removed
  deriving DecidableEq, Repr

/-- Modelled from the spec: the `manager.PackageInfo` record (the
`manager` package is not under src/): name, version, new-version,
architecture, status, optional description. -/
structure PackageInfo where
  name : String
  version : String
  newVersion : String
  arch : String
  status : PackageStatus
  description : String
  deriving DecidableEq, Repr

/-- The Go zero value `manager.PackageInfo\x7b\x7d`. -/
def PackageInfo.zero : PackageInfo :=
  { name := "", version := "", newVersion := "", arch := "",
    status := .unknown, description := "" }

/-- `var pm string = "apt"` (apt.go line 18). -/
def pm : String := "apt"

/-- Flag constants (apt.go lines 20-29). -/
def ArgsAssumeYes : String := "-y"

def ArgsAssumeNo : String := "--assume-no"

def ArgsDryRun : String := "--dry-run"

def ArgsFixBroken : String := "-f"

def ArgsQuiet : String := "-qq"

def ArgsPurge : String := "--purge"

def ArgsAutoRemove : String := "--autoremove"

def ArgsShowProgress : String := "--show-progress"

/-- `ENV_NonInteractive` (apt.go line 31). -/
def ENV_NonInteractive : List String :=
  ["LC_ALL=C", "DEBIAN_FRONTEND=noninteractive", "DEBCONF_NONINTERACTIVE_SEEN=true"]

/-- The nil check every operation performs: a nil options pointer is replaced
by the all-flags-false value (apt.go lines 47-53 and analogues). -/
def normOpts (opts : Option Options) : Options :=
  opts.getD { dryRun := false, interactive := false, verbose := false }

/-- How a child process's standard streams are wired: captured stdout
(`cmd.Output()`) or attached directly to the caller's streams
(`cmd.Stdin/Stdout/Stderr = os.Stdin/...; cmd.Run()`). -/
inductive ExecMode where
  | captured
  | streamed
  deriving DecidableEq, Repr

/-- Everything the Go code hands to exec.Command before running it:
binary name, argument list, environment (`none` = inherit the caller's
environment, i.e. cmd.Env left nil), and the stream mode. -/
structure ExecPlan where
  bin : String
  args : List String
  env : Option (List String)
  mode : ExecMode
  deriving DecidableEq, Repr

/-- An execution error: the child failed to start or exited non-zero. -/
structure ExecErr where
  msg : String
  deriving DecidableEq, Repr

/-- The outcome of running the child process: the stdout text produced
(possibly partial) and the optional execution error. -/
structure ExecResult where
  stdout : String
  err : Option ExecErr
  deriving DecidableEq, Repr

/-! ### Output parsers

The parser functions (ParseInstallOutput and friends) live in the
repository's `manager` utilities, which are not under src/; each is
modelled from the spec: the captured text is split into lines, each line
is matched against the fixed output grammar of the corresponding tool,
and lines that do not match are skipped without error (spec §4.2).
Whitespace-delimited fields are modelled as space-separated fields. -/

/-- Splits a character list at every occurrence of the separator
(the char-level counterpart of Go's strings.Split). -/
def splitOnChar (sep : Char) : List Char → List (List Char)
  | [] => [[]]
  | c :: cs =>
    match splitOnChar sep cs with
    | [] => if c = sep then [[], []] else [[c]]
    | g :: gs => if c = sep then [] :: g :: gs else (c :: g) :: gs

/-- Lines of the captured text (spec §4.2: the text is split into lines). -/
def splitLines (s : String) : List String :=
  (splitOnChar '\n' s.toList).map (fun cs => String.mk cs)

/-- Whitespace-delimited fields of one line; empty fields are dropped,
so every field of the result is a non-empty string. -/
def splitFields (s : String) : List String :=
  ((splitOnChar ' ' s.toList).map (fun cs => String.mk cs)).filter (fun f => f != "")

/-- Strips one layer of parentheses around a version field such as
`(1.2.3)`. -/
def stripParens (s : String) : String :=
  let cs := s.toList
  let cs := match cs with
    | '(' :: rest => rest
    | other => other
  let cs := match cs.getLast? with
    | some ')' => cs.dropLast
    | _ => cs
  String.mk cs

/-- The version field of an install/remove summary line: the first field
after the package name, with parentheses stripped; empty when absent. -/
def versionField : List String → String
  | [] => ""
  | v :: _ => stripParens v

/-- Modelled from the spec: one line of the apt install/upgrade summary
(whitespace-delimited fields), shape `Setting up <name> (<version>) ...`;
any other line yields no record. -/
def parseInstallLine (line : String) : Option PackageInfo :=
  match splitFields line with
  | "Setting" :: "up" :: name :: rest =>
    some { PackageInfo.zero with
            name := name, version := versionField rest, status := .installed }
  | _ => none

/-- Modelled from the spec: one line of the apt remove/autoremove summary,
shape `Removing <name> (<version>) ...`; any other line yields no record. -/
def parseDeleteLine (line : String) : Option PackageInfo :=
  match splitFields line with
  | "Removing" :: name :: rest =>
    some { PackageInfo.zero with
            name := name, version := versionField rest, status := .removed }
  | _ => none

/-- Modelled from the spec: one line of apt search output, shape
`<name>/<suite> <version> <arch> ...`; the trailing fields are kept as a
description only when verbose is set (spec §4.2: the configuration is
used only to decide whether to retain extra diagnostic fields). -/
def parseSearchLine (o : Options) (line : String) : Option PackageInfo :=
  match splitFields line with
  | nameSuite :: version :: arch :: rest =>
    match (splitOnChar '/' nameSuite.toList).map (fun cs => String.mk cs) with
    | name :: _ :: _ =>
      if name = "" then none
      else some { PackageInfo.zero with
                   name := name, version := version, arch := arch,
                   status := .available,
                   description := if o.verbose then String.intercalate " " rest else "" }
    | _ => none
  | _ => none

/-- Modelled from the spec: one line of `apt list --upgradable` output,
shape `<name>/<suite> <newVersion> <arch> ...`; any other line yields no
record. -/
def parseUpgradableLine (line : String) : Option PackageInfo :=
  match splitFields line with
  | nameSuite :: newVersion :: arch :: _ =>
    match (splitOnChar '/' nameSuite.toList).map (fun cs => String.mk cs) with
    | name :: _ :: _ =>
      if name = "" then none
      else some { PackageInfo.zero with
                   name := name, newVersion := newVersion, arch := arch,
                   status := .upgradable }
    | _ => none
  | _ => none

/-- Modelled from the spec: one line of the dpkg-query installed listing,
the fixed two-field `<name> <version>` format; any other line yields no
record. -/
def parseInstalledLine (line : String) : Option PackageInfo :=
  match splitFields line with
  | [name, version] =>
    some { PackageInfo.zero with
            name := name, version := version, status := .installed }
  | _ => none

/-- Splits a character list at the first occurrence of `": "` into the
part before and the part after; `none` when no occurrence exists. -/
def breakKV : List Char → Option (List Char × List Char)
  | [] => none
  | ':' :: ' ' :: rest => some ([], rest)
  | c :: rest =>
    match breakKV rest with
    | none => none
    | some (k, v) => some (c :: k, v)

/-- Modelled from the spec: one line of the colon-delimited key/value
block printed by apt-cache show, split at the first `": "` into key and
value; `none` when the line has no such separator. -/
def kvOf (line : String) : Option (String × String) :=
  match breakKV line.toList with
  | none => none
  | some (k, v) => some (String.mk k, String.mk v)

/-- Folds one key/value line into the package-info record; lines that
are not key/value pairs, and unknown keys, leave the record unchanged. -/
def applyKV (info : PackageInfo) (line : String) : PackageInfo :=
  match kvOf line with
  | none => info
  | some (k, v) =>
    if k = "Package" then { info with name := v }
    else if k = "Version" then { info with version := v }
    else if k = "Architecture" then { info with arch := v }
    else if k = "Description" then { info with description := v }
    else info

/-- Modelled from the spec: ParseInstallOutput — install/upgrade summary
text to records (total; non-matching lines dropped).  Called with the
options the Go caller passes (already nil-normalised by Install/Upgrade). -/
def ParseInstallOutput (out : String) (_opts : Option Options) : List PackageInfo :=
  (splitLines out).filterMap parseInstallLine

/-- Modelled from the spec: ParseDeletedOutput — remove/autoremove
summary text to records (total; non-matching lines dropped). -/
def ParseDeletedOutput (out : String) (_opts : Option Options) : List PackageInfo :=
  (splitLines out).filterMap parseDeleteLine

/-- Modelled from the spec: ParseFindOutput — apt search text to records
(total; non-matching lines dropped); a nil options value is treated as
all-flags-false. -/
def ParseFindOutput (out : String) (opts : Option Options) : List PackageInfo :=
  (splitLines out).filterMap (parseSearchLine (normOpts opts))

/-- Modelled from the spec: ParseListInstalledOutput — dpkg-query
two-field listing to records (total; non-matching lines dropped). -/
def ParseListInstalledOutput (out : String) (_opts : Option Options) : List PackageInfo :=
  (splitLines out).filterMap parseInstalledLine

/-- Modelled from the spec: ParseListUpgradableOutput — apt
list --upgradable text to records (total; non-matching lines dropped). -/
def ParseListUpgradableOutput (out : String) (_opts : Option Options) : List PackageInfo :=
  (splitLines out).filterMap parseUpgradableLine

/-- Modelled from the spec: ParsePackageInfoOutput — the colon-delimited
key/value block of apt-cache show folded into a single record (total;
non-matching lines leave the record unchanged). -/
def ParsePackageInfoOutput (out : String) (_opts : Option Options) : PackageInfo :=
  (splitLines out).foldl applyKV { PackageInfo.zero with status := .available }

/-! ### Command builder: argument lists (straight from apt.go) -/

/-- Install's argument list (apt.go lines 44-62): base
`install -f <pkgs>`, then `--dry-run` when configured, then `-y` when not
interactive. -/
def installArgs (pkgs : List String) (opts : Option Options) : List String :=
  let args := ["install", ArgsFixBroken] ++ pkgs
  let o := normOpts opts
  let args := if o.dryRun then args ++ [ArgsDryRun] else args
  if o.interactive then args else args ++ [ArgsAssumeYes]

/-- Delete's argument list (apt.go lines 82-98): base
`remove -f --autoremove <pkgs>`, then `--dry-run` when configured, then
`-y` when not interactive. -/
def deleteArgs (pkgs : List String) (opts : Option Options) : List String :=
  let args := ["remove", ArgsFixBroken, ArgsAutoRemove] ++ pkgs
  let o := normOpts opts
  let args := if o.dryRun then args ++ [ArgsDryRun] else args
  if o.interactive then args else args ++ [ArgsAssumeYes]

/-- Upgrade's argument list (apt.go lines 180-195). -/
def upgradeArgs (opts : Option Options) : List String :=
  let args := ["upgrade"]
  let o := normOpts opts
  let args := if o.dryRun then args ++ [ArgsDryRun] else args
  if o.interactive then args else args ++ [ArgsAssumeYes]

/-- AutoRemove's argument list (apt.go lines 254-269). -/
def autoRemoveArgs (opts : Option Options) : List String :=
  let args := ["autoremove"]
  let o := normOpts opts
  let args := if o.dryRun then args ++ [ArgsDryRun] else args
  if o.interactive then args else args ++ [ArgsAssumeYes]

/-- Refresh's argument list (apt.go line 119): fixed `update`. -/
def refreshArgs : List String := ["update"]

/-- Clean's argument list (apt.go line 216): fixed `autoclean`. -/
def cleanArgs : List String := ["autoclean"]

/-- Find's argument list (apt.go line 148): `search <keywords>`,
independent of the options. -/
def findArgs (keywords : List String) : List String := ["search"] ++ keywords

/-- ListInstalled's argument list (apt.go line 161): fixed dpkg-query
format query. -/
def listInstalledArgs : List String :=
  ["-W", "-f", "$\x7bbinary:Package\x7d $\x7bVersion\x7d\n"]

/-- ListUpgradable's argument list (apt.go line 171): fixed
`list --upgradable`. -/
def listUpgradableArgs : List String := ["list", "--upgradable"]

/-- GetPackageInfo's argument list (apt.go line 245): `show <pkg>`. -/
def getPackageInfoArgs (pkg : String) : List String := ["show", pkg]

/-! ### Command builder: execution plans (straight from apt.go) -/

/-- Install's exec plan (apt.go lines 64-74): interactive attaches the
caller's streams and leaves cmd.Env nil; otherwise cmd.Env is set to
ENV_NonInteractive and stdout is captured. -/
def installPlan (pkgs : List String) (opts : Option Options) : ExecPlan :=
  let o := normOpts opts
  if o.interactive then
    { bin := pm, args := installArgs pkgs opts, env := none, mode := .streamed }
  else
    { bin := pm, args := installArgs pkgs opts,
      env := some ENV_NonInteractive, mode := .captured }

/-- Delete's exec plan (apt.go lines 100-110). -/
def deletePlan (pkgs : List String) (opts : Option Options) : ExecPlan :=
  let o := normOpts opts
  if o.interactive then
    { bin := pm, args := deleteArgs pkgs opts, env := none, mode := .streamed }
  else
    { bin := pm, args := deleteArgs pkgs opts,
      env := some ENV_NonInteractive, mode := .captured }

/-- Upgrade's exec plan (apt.go lines 197-207). -/
def upgradePlan (opts : Option Options) : ExecPlan :=
  let o := normOpts opts
  if o.interactive then
    { bin := pm, args := upgradeArgs opts, env := none, mode := .streamed }
  else
    { bin := pm, args := upgradeArgs opts,
      env := some ENV_NonInteractive, mode := .captured }

/-- AutoRemove's exec plan (apt.go lines 271-281). -/
def autoRemovePlan (opts : Option Options) : ExecPlan :=
  let o := normOpts opts
  if o.interactive then
    { bin := pm, args := autoRemoveArgs opts, env := none, mode := .streamed }
  else
    { bin := pm, args := autoRemoveArgs opts,
      env := some ENV_NonInteractive, mode := .captured }

/-- Refresh's exec plan (apt.go lines 118-136): cmd.Env is set to
ENV_NonInteractive before the interactive flag is inspected, so the
environment is sanitized on both paths. -/
def refreshPlan (opts : Option Options) : ExecPlan :=
  let o := normOpts opts
  { bin := pm, args := refreshArgs, env := some ENV_NonInteractive,
    mode := if o.interactive then .streamed else .captured }

/-- Clean's exec plan (apt.go lines 215-233): like Refresh, the
environment is set before the interactive flag is inspected. -/
def cleanPlan (opts : Option Options) : ExecPlan :=
  let o := normOpts opts
  { bin := pm, args := cleanArgs, env := some ENV_NonInteractive,
    mode := if o.interactive then .streamed else .captured }

/-- Find's exec plan (apt.go lines 147-152): always captured, environment
always sanitized; the options are not consulted. -/
def findPlan (keywords : List String) (_opts : Option Options) : ExecPlan :=
  { bin := "apt", args := findArgs keywords,
    env := some ENV_NonInteractive, mode := .captured }

/-- ListInstalled's exec plan (apt.go lines 160-163): dpkg-query, always
captured, environment always sanitized; the options are not consulted. -/
def listInstalledPlan (_opts : Option Options) : ExecPlan :=
  { bin := "dpkg-query", args := listInstalledArgs,
    env := some ENV_NonInteractive, mode := .captured }

/-- ListUpgradable's exec plan (apt.go lines 170-173): always captured,
environment always sanitized; the options are not consulted. -/
def listUpgradablePlan (_opts : Option Options) : ExecPlan :=
  { bin := pm, args := listUpgradableArgs,
    env := some ENV_NonInteractive, mode := .captured }

/-- GetPackageInfo's exec plan (apt.go lines 244-247): apt-cache, always
captured, environment always sanitized; the options are not consulted. -/
def getPackageInfoPlan (pkg : String) (_opts : Option Options) : ExecPlan :=
  { bin := "apt-cache", args := getPackageInfoArgs pkg,
    env := some ENV_NonInteractive, mode := .captured }

/-! ### Result handling: from the child's outcome to the Go return values -/

/-- Install's result (apt.go lines 66-79): interactive returns (nil, err)
from cmd.Run; otherwise a non-nil error from cmd.Output returns
(nil, err), and success hands stdout to ParseInstallOutput with the
nil-normalised options. -/
def installRun (_pkgs : List String) (opts : Option Options) (res : ExecResult) :
    List PackageInfo × Option ExecErr :=
  let o := normOpts opts
  if o.interactive then ([], res.err)
  else
    match res.err with
    | some e => ([], some e)
    | none => (ParseInstallOutput res.stdout (some o), none)

/-- Delete's result (apt.go lines 102-115). -/
def deleteRun (_pkgs : List String) (opts : Option Options) (res : ExecResult) :
    List PackageInfo × Option ExecErr :=
  let o := normOpts opts
  if o.interactive then ([], res.err)
  else
    match res.err with
    | some e => ([], some e)
    | none => (ParseDeletedOutput res.stdout (some o), none)

/-- Upgrade's result (apt.go lines 199-212): success parses with
ParseInstallOutput. -/
def upgradeRun (opts : Option Options) (res : ExecResult) :
    List PackageInfo × Option ExecErr :=
  let o := normOpts opts
  if o.interactive then ([], res.err)
  else
    match res.err with
    | some e => ([], some e)
    | none => (ParseInstallOutput res.stdout (some o), none)

/-- AutoRemove's result (apt.go lines 273-286): success parses with
ParseDeletedOutput. -/
def autoRemoveRun (opts : Option Options) (res : ExecResult) :
    List PackageInfo × Option ExecErr :=
  let o := normOpts opts
  if o.interactive then ([], res.err)
  else
    match res.err with
    | some e => ([], some e)
    | none => (ParseDeletedOutput res.stdout (some o), none)

/-- Refresh's result (apt.go lines 129-144): only an error value; verbose
logging of captured stdout is a side effect with no returned data. -/
def refreshRun (opts : Option Options) (res : ExecResult) : Option ExecErr :=
  let o := normOpts opts
  if o.interactive then res.err
  else
    match res.err with
    | some e => some e
    | none => none

/-- Clean's result (apt.go lines 226-241): like Refresh. -/
def cleanRun (opts : Option Options) (res : ExecResult) : Option ExecErr :=
  let o := normOpts opts
  if o.interactive then res.err
  else
    match res.err with
    | some e => some e
    | none => none

/-- Find's result (apt.go lines 152-157): always the captured path; the
raw (possibly nil) options are handed to ParseFindOutput. -/
def findRun (_keywords : List String) (opts : Option Options) (res : ExecResult) :
    List PackageInfo × Option ExecErr :=
  match res.err with
  | some e => ([], some e)
  | none => (ParseFindOutput res.stdout opts, none)

/-- ListInstalled's result (apt.go lines 163-167). -/
def listInstalledRun (opts : Option Options) (res : ExecResult) :
    List PackageInfo × Option ExecErr :=
  match res.err with
  | some e => ([], some e)
  | none => (ParseListInstalledOutput res.stdout opts, none)

/-- ListUpgradable's result (apt.go lines 173-177). -/
def listUpgradableRun (opts : Option Options) (res : ExecResult) :
    List PackageInfo × Option ExecErr :=
  match res.err with
  | some e => ([], some e)
  | none => (ParseListUpgradableOutput res.stdout opts, none)

/-- GetPackageInfo's result (apt.go lines 247-251): an error returns the
zero record with the error. -/
def getPackageInfoRun (_pkg : String) (opts : Option Options) (res : ExecResult) :
    PackageInfo × Option ExecErr :=
  match res.err with
  | some e => (PackageInfo.zero, some e)
  | none => (ParsePackageInfoOutput res.stdout opts, none)

/-- The explicit all-flags-false default that a nil options pointer is
replaced by. -/
def defaultOptions : Options :=
  { dryRun := false, interactive := false, verbose := false }

/-! ### Helper lemmas -/

theorem mem_splitFields_ne_empty {s f : String} (h : f ∈ splitFields s) : f ≠ "" := by
  unfold splitFields at h
  have h' := (List.mem_filter.mp h).2
  simpa using h'

theorem filterMap_drop {α β : Type} (f : α → Option β) (pre post : List α) (l : α)
    (h : f l = none) :
    (pre ++ l :: post).filterMap f = (pre ++ post).filterMap f := by
  simp [List.filterMap_append, List.filterMap_cons, h]

theorem foldl_applyKV_drop (pre post : List String) (l : String) (i : PackageInfo)
    (h : kvOf l = none) :
    (pre ++ l :: post).foldl applyKV i = (pre ++ post).foldl applyKV i := by
  have hl : ∀ j, applyKV j l = j := fun j => by simp [applyKV, h]
  simp [List.foldl_append, hl]

theorem parseInstallLine_name_ne {l : String} {r : PackageInfo}
    (h : parseInstallLine l = some r) : r.name ≠ "" := by
  unfold parseInstallLine at h
  split at h
  · injection h with h'
    subst h'
    next name rest heq =>
      refine mem_splitFields_ne_empty (s := l) ?_
      rw [heq]
      exact List.mem_cons_of_mem _ (List.mem_cons_of_mem _ (List.mem_cons_self _ _))
  · exact absurd h (by simp)

theorem parseDeleteLine_name_ne {l : String} {r : PackageInfo}
    (h : parseDeleteLine l = some r) : r.name ≠ "" := by
  unfold parseDeleteLine at h
  split at h
  · injection h with h'
    subst h'
    next name rest heq =>
      refine mem_splitFields_ne_empty (s := l) ?_
      rw [heq]
      exact List.mem_cons_of_mem _ (List.mem_cons_self _ _)
  · exact absurd h (by simp)

theorem parseSearchLine_name_ne {o : Options} {l : String} {r : PackageInfo}
    (h : parseSearchLine o l = some r) : r.name ≠ "" := by
  unfold parseSearchLine at h
  split at h
  · split at h
    · split at h
      · exact absurd h (by simp)
      · next hname =>
          injection h with h'
          subst h'
          exact hname
    · exact absurd h (by simp)
  · exact absurd h (by simp)

theorem parseUpgradableLine_name_ne {l : String} {r : PackageInfo}
    (h : parseUpgradableLine l = some r) : r.name ≠ "" := by
  unfold parseUpgradableLine at h
  split at h
  · split at h
    · split at h
      · exact absurd h (by simp)
      · next hname =>
          injection h with h'
          subst h'
          exact hname
    · exact absurd h (by simp)
  · exact absurd h (by simp)

theorem parseInstalledLine_name_ne {l : String} {r : PackageInfo}
    (h : parseInstalledLine l = some r) : r.name ≠ "" := by
  unfold parseInstalledLine at h
  split at h
  · injection h with h'
    subst h'
    next name version heq =>
      refine mem_splitFields_ne_empty (s := l) ?_
      rw [heq]
      exact List.mem_cons_self _ _
  · exact absurd h (by simp)

/-! ### Claim theorems -/

/-- C5: Install's argument list is exactly the base `install -f <pkgs>`
followed by the configuration-dependent flags, and Delete's is exactly
`remove -f --autoremove <pkgs>` followed by the configuration-dependent
flags — so each begins with its base subcommand and fixed flags, then the
package names, before any configuration-dependent flag is appended. -/
theorem install_delete_base_args (pkgs : List String) (opts : Option Options) :
    installArgs pkgs opts =
      ["install", ArgsFixBroken] ++ pkgs ++
        ((if (normOpts opts).dryRun then [ArgsDryRun] else []) ++
         (if (normOpts opts).interactive then [] else [ArgsAssumeYes])) ∧
    deleteArgs pkgs opts =
      ["remove", ArgsFixBroken, ArgsAutoRemove] ++ pkgs ++
        ((if (normOpts opts).dryRun then [ArgsDryRun] else []) ++
         (if (normOpts opts).interactive then [] else [ArgsAssumeYes])) := by
  cases h1 : (normOpts opts).dryRun <;> cases h2 : (normOpts opts).interactive <;>
    simp [installArgs, deleteArgs, h1, h2]

/-- C7: calling any operation with a nil configuration behaves exactly
like calling it with the all-flags-false configuration: same exec plan
(argument list, environment, mode) and same result on every execution
outcome. -/
theorem nil_options_default_equiv (pkgs keywords : List String) (pkg : String)
    (res : ExecResult) :
    installPlan pkgs none = installPlan pkgs (some defaultOptions) ∧
    installRun pkgs none res = installRun pkgs (some defaultOptions) res ∧
    deletePlan pkgs none = deletePlan pkgs (some defaultOptions) ∧
    deleteRun pkgs none res = deleteRun pkgs (some defaultOptions) res ∧
    upgradePlan none = upgradePlan (some defaultOptions) ∧
    upgradeRun none res = upgradeRun (some defaultOptions) res ∧
    autoRemovePlan none = autoRemovePlan (some defaultOptions) ∧
    autoRemoveRun none res = autoRemoveRun (some defaultOptions) res ∧
    refreshPlan none = refreshPlan (some defaultOptions) ∧
    refreshRun none res = refreshRun (some defaultOptions) res ∧
    cleanPlan none = cleanPlan (some defaultOptions) ∧
    cleanRun none res = cleanRun (some defaultOptions) res ∧
    findPlan keywords none = findPlan keywords (some defaultOptions) ∧
    findRun keywords none res = findRun keywords (some defaultOptions) res ∧
    listInstalledPlan none = listInstalledPlan (some defaultOptions) ∧
    listInstalledRun none res = listInstalledRun (some defaultOptions) res ∧
    listUpgradablePlan none = listUpgradablePlan (some defaultOptions) ∧
    listUpgradableRun none res = listUpgradableRun (some defaultOptions) res ∧
    getPackageInfoPlan pkg none = getPackageInfoPlan pkg (some defaultOptions) ∧
    getPackageInfoRun pkg none res = getPackageInfoRun pkg (some defaultOptions) res := by
  obtain ⟨stdout, err⟩ := res
  cases err <;>
    exact ⟨rfl, rfl, rfl, rfl, rfl, rfl, rfl, rfl, rfl, rfl,
           rfl, rfl, rfl, rfl, rfl, rfl, rfl, rfl, rfl, rfl⟩

/-- C10: the read-only operations Find, ListInstalled, ListUpgradable and
GetPackageInfo build the same exec plan (same command line, same
environment) for every configuration, and that plan always captures
output — dryRun and interactive have no effect on them. -/
theorem readonly_ops_ignore_options (keywords : List String) (pkg : String)
    (o o' : Option Options) :
    findPlan keywords o = findPlan keywords o' ∧
    (findPlan keywords o).mode = ExecMode.captured ∧
    listInstalledPlan o = listInstalledPlan o' ∧
    (listInstalledPlan o).mode = ExecMode.captured ∧
    listUpgradablePlan o = listUpgradablePlan o' ∧
    (listUpgradablePlan o).mode = ExecMode.captured ∧
    getPackageInfoPlan pkg o = getPackageInfoPlan pkg o' ∧
    (getPackageInfoPlan pkg o).mode = ExecMode.captured :=
  ⟨rfl, rfl, rfl, rfl, rfl, rfl, rfl, rfl⟩

/-- C4: every mutating operation appends "--dry-run" exactly when the
configuration (nil meaning all-false) has dryRun set; with dryRun unset
the flag is absent, provided it is not itself among the given package
names. -/
theorem dry_run_flag_iff_configured (pkgs : List String) (opts : Option Options) :
    ((normOpts opts).dryRun = true →
      ArgsDryRun ∈ installArgs pkgs opts ∧ ArgsDryRun ∈ deleteArgs pkgs opts ∧
      ArgsDryRun ∈ upgradeArgs opts ∧ ArgsDryRun ∈ autoRemoveArgs opts) ∧
    ((normOpts opts).dryRun = false → ArgsDryRun ∉ pkgs →
      ArgsDryRun ∉ installArgs pkgs opts ∧ ArgsDryRun ∉ deleteArgs pkgs opts ∧
      ArgsDryRun ∉ upgradeArgs opts ∧ ArgsDryRun ∉ autoRemoveArgs opts) := by
  constructor
  · intro h1
    cases h2 : (normOpts opts).interactive <;>
      simp [installArgs, deleteArgs, upgradeArgs, autoRemoveArgs, h1, h2,
            ArgsDryRun, ArgsFixBroken, ArgsAutoRemove, ArgsAssumeYes]
  · intro h1 hp
    rw [ArgsDryRun] at hp
    cases h2 : (normOpts opts).interactive <;>
      simp [installArgs, deleteArgs, upgradeArgs, autoRemoveArgs, h1, h2, hp,
            ArgsDryRun, ArgsFixBroken, ArgsAutoRemove, ArgsAssumeYes]

/-- C4 witness: with dryRun set the flag appears in Install's list, with
the nil configuration it does not. -/
theorem dry_run_flag_iff_configured_witness :
    ArgsDryRun ∈ installArgs ["vim"]
      (some { dryRun := true, interactive := false, verbose := false }) ∧
    ArgsDryRun ∉ installArgs ["vim"] none :=
  ⟨((dry_run_flag_iff_configured ["vim"]
      (some { dryRun := true, interactive := false, verbose := false })).1 rfl).1,
   ((dry_run_flag_iff_configured ["vim"] none).2 rfl (by decide)).1⟩

/-- C1 counterexample: Find constructs an apt argument list, yet with an
all-false (hence non-interactive) configuration that list does not
contain "-y" — so the assume-yes flag is not appended by every
argument-list-constructing operation. -/
theorem find_args_lack_assume_yes :
    ArgsAssumeYes ∉ (findPlan ["vim"]
      (some { dryRun := false, interactive := false, verbose := false })).args := by
  decide

/-- C1 amended: the four mutating operations (Install, Delete, Upgrade,
AutoRemove) append "-y" exactly when the configuration (nil meaning
all-false) is not interactive — absent when interactive, provided "-y" is
not itself among the given package names — while the fixed argument lists
of Refresh, Clean, ListInstalled, ListUpgradable never contain "-y" and
Find's contains it only if a search keyword equals it. -/
theorem assume_yes_iff_noninteractive (pkgs keywords : List String)
    (opts : Option Options) :
    ((normOpts opts).interactive = false →
      ArgsAssumeYes ∈ installArgs pkgs opts ∧ ArgsAssumeYes ∈ deleteArgs pkgs opts ∧
      ArgsAssumeYes ∈ upgradeArgs opts ∧ ArgsAssumeYes ∈ autoRemoveArgs opts) ∧
    ((normOpts opts).interactive = true → ArgsAssumeYes ∉ pkgs →
      ArgsAssumeYes ∉ installArgs pkgs opts ∧ ArgsAssumeYes ∉ deleteArgs pkgs opts ∧
      ArgsAssumeYes ∉ upgradeArgs opts ∧ ArgsAssumeYes ∉ autoRemoveArgs opts) ∧
    ArgsAssumeYes ∉ refreshArgs ∧ ArgsAssumeYes ∉ cleanArgs ∧
    ArgsAssumeYes ∉ listInstalledArgs ∧ ArgsAssumeYes ∉ listUpgradableArgs ∧
    (ArgsAssumeYes ∉ keywords → ArgsAssumeYes ∉ findArgs keywords) := by
  refine ⟨?_, ?_, by decide, by decide, by decide, by decide, ?_⟩
  · intro h1
    cases h2 : (normOpts opts).dryRun <;>
      simp [installArgs, deleteArgs, upgradeArgs, autoRemoveArgs, h1, h2]
  · intro h1 hp
    rw [ArgsAssumeYes] at hp
    cases h2 : (normOpts opts).dryRun <;>
      simp [installArgs, deleteArgs, upgradeArgs, autoRemoveArgs, h1, h2, hp,
            ArgsAssumeYes, ArgsDryRun, ArgsFixBroken, ArgsAutoRemove]
  · intro hk
    rw [ArgsAssumeYes] at hk
    simp [findArgs, hk, ArgsAssumeYes]

/-- C1 witness: with the nil configuration Install's list contains "-y";
with an interactive configuration it does not. -/
theorem assume_yes_iff_noninteractive_witness :
    ArgsAssumeYes ∈ installArgs ["vim"] none ∧
    ArgsAssumeYes ∉ installArgs ["vim"]
      (some { dryRun := false, interactive := true, verbose := false }) :=
  ⟨((assume_yes_iff_noninteractive ["vim"] [] none).1 rfl).1,
   (((assume_yes_iff_noninteractive ["vim"] []
      (some { dryRun := false, interactive := true, verbose := false })).2.1
        rfl (by decide))).1⟩

/-- C6: on every captured (non-interactive) execution path the child's
environment is set to exactly the three variables LC_ALL=C,
DEBIAN_FRONTEND=noninteractive, DEBCONF_NONINTERACTIVE_SEEN=true — for
the mutating operations when not interactive, and for Refresh, Clean and
the read-only operations always. -/
theorem captured_env_exact (pkgs keywords : List String) (pkg : String)
    (opts : Option Options) :
    ((normOpts opts).interactive = false →
      (installPlan pkgs opts).env = some ENV_NonInteractive ∧
      (deletePlan pkgs opts).env = some ENV_NonInteractive ∧
      (upgradePlan opts).env = some ENV_NonInteractive ∧
      (autoRemovePlan opts).env = some ENV_NonInteractive ∧
      (refreshPlan opts).env = some ENV_NonInteractive ∧
      (cleanPlan opts).env = some ENV_NonInteractive) ∧
    (findPlan keywords opts).env = some ENV_NonInteractive ∧
    (listInstalledPlan opts).env = some ENV_NonInteractive ∧
    (listUpgradablePlan opts).env = some ENV_NonInteractive ∧
    (getPackageInfoPlan pkg opts).env = some ENV_NonInteractive ∧
    ENV_NonInteractive =
      ["LC_ALL=C", "DEBIAN_FRONTEND=noninteractive",
       "DEBCONF_NONINTERACTIVE_SEEN=true"] := by
  refine ⟨fun h => ?_, rfl, rfl, rfl, rfl, rfl⟩
  simp [installPlan, deletePlan, upgradePlan, autoRemovePlan, refreshPlan, cleanPlan, h]

/-- C6 witness: at the nil configuration, Install's captured-path plan
carries exactly the sanitized environment. -/
theorem captured_env_exact_witness :
    (installPlan ["vim"] none).env = some ENV_NonInteractive ∧
    ENV_NonInteractive =
      ["LC_ALL=C", "DEBIAN_FRONTEND=noninteractive",
       "DEBCONF_NONINTERACTIVE_SEEN=true"] :=
  ⟨((captured_env_exact ["vim"] [] "vim" none).1 rfl).1,
   (captured_env_exact ["vim"] [] "vim" none).2.2.2.2.2⟩

/-- C9: Refresh and Clean set the sanitized environment unconditionally —
even when interactive — whereas interactive Install, Delete, Upgrade and
AutoRemove leave the environment unset (the child inherits the caller's). -/
theorem refresh_clean_env_unconditional (pkgs : List String) (opts : Option Options) :
    (refreshPlan opts).env = some ENV_NonInteractive ∧
    (cleanPlan opts).env = some ENV_NonInteractive ∧
    ((normOpts opts).interactive = true →
      (installPlan pkgs opts).env = none ∧ (deletePlan pkgs opts).env = none ∧
      (upgradePlan opts).env = none ∧ (autoRemovePlan opts).env = none) := by
  refine ⟨rfl, rfl, fun h => ?_⟩
  simp [installPlan, deletePlan, upgradePlan, autoRemovePlan, h]

/-- C9 witness: with an interactive configuration, Refresh's plan still
carries the sanitized environment while Install's carries none. -/
theorem refresh_clean_env_unconditional_witness :
    (refreshPlan (some { dryRun := false, interactive := true, verbose := false })).env =
      some ENV_NonInteractive ∧
    (installPlan ["vim"]
      (some { dryRun := false, interactive := true, verbose := false })).env = none :=
  ⟨(refresh_clean_env_unconditional ["vim"]
      (some { dryRun := false, interactive := true, verbose := false })).1,
   ((refresh_clean_env_unconditional ["vim"]
      (some { dryRun := false, interactive := true, verbose := false })).2.2 rfl).1⟩

/-- C2: whenever the child process fails (fails to start or exits
non-zero), every non-interactive operation returns the failure with no
structured records — nil list or zero record — regardless of the stdout
text captured before the failure. -/
theorem nonzero_exit_no_records (pkgs keywords : List String) (pkg : String)
    (opts : Option Options) (res : ExecResult) (e : ExecErr)
    (he : res.err = some e) :
    ((normOpts opts).interactive = false →
      installRun pkgs opts res = ([], some e) ∧
      deleteRun pkgs opts res = ([], some e) ∧
      upgradeRun opts res = ([], some e) ∧
      autoRemoveRun opts res = ([], some e) ∧
      refreshRun opts res = some e ∧
      cleanRun opts res = some e) ∧
    findRun keywords opts res = ([], some e) ∧
    listInstalledRun opts res = ([], some e) ∧
    listUpgradableRun opts res = ([], some e) ∧
    getPackageInfoRun pkg opts res = (PackageInfo.zero, some e) := by
  constructor
  · intro h
    simp [installRun, deleteRun, upgradeRun, autoRemoveRun, refreshRun, cleanRun, h, he]
  · simp [findRun, listInstalledRun, listUpgradableRun, getPackageInfoRun, he]

/-- C2 witness: with the nil configuration and a failing execution whose
stdout nonetheless looks parseable, Install returns no records and Find
returns no records. -/
theorem nonzero_exit_no_records_witness :
    installRun ["vim"] none
      { stdout := "Setting up vim (2:9.0) ...", err := some { msg := "exit status 100" } } =
      ([], some { msg := "exit status 100" }) ∧
    findRun ["vim"] none
      { stdout := "vim/stable 2:9.0 amd64", err := some { msg := "exit status 100" } } =
      ([], some { msg := "exit status 100" }) :=
  ⟨((nonzero_exit_no_records ["vim"] ["vim"] "vim" none
      { stdout := "Setting up vim (2:9.0) ...", err := some { msg := "exit status 100" } }
      { msg := "exit status 100" } rfl).1 rfl).1,
   (nonzero_exit_no_records ["vim"] ["vim"] "vim" none
      { stdout := "vim/stable 2:9.0 amd64", err := some { msg := "exit status 100" } }
      { msg := "exit status 100" } rfl).2.1⟩

/-- C3 counterexample: with an interactive configuration, Find still
builds a captured-mode plan and, on a successful run, still returns
structured records parsed from stdout — so not every operation streams
and returns no data when interactive is requested. -/
theorem find_interactive_still_captures :
    (findPlan ["vim"]
      (some { dryRun := false, interactive := true, verbose := false })).mode =
      ExecMode.captured ∧
    (findRun ["vim"] (some { dryRun := false, interactive := true, verbose := false })
      { stdout := "vim/stable 2:9.0 amd64", err := none }).1 ≠ [] := by
  exact ⟨rfl, by decide⟩

/-- C3 amended: for the six operations that honour the interactive flag
(Install, Delete, Upgrade, AutoRemove, Refresh, Clean), an interactive
configuration attaches the caller's streams (streamed mode, nothing
captured) and the call returns no structured records — only the child's
success or failure; the read-only operations ignore the flag and keep
capturing. -/
theorem interactive_streams_no_records (pkgs : List String) (opts : Option Options)
    (res : ExecResult) (h : (normOpts opts).interactive = true) :
    (installPlan pkgs opts).mode = ExecMode.streamed ∧
    installRun pkgs opts res = ([], res.err) ∧
    (deletePlan pkgs opts).mode = ExecMode.streamed ∧
    deleteRun pkgs opts res = ([], res.err) ∧
    (upgradePlan opts).mode = ExecMode.streamed ∧
    upgradeRun opts res = ([], res.err) ∧
    (autoRemovePlan opts).mode = ExecMode.streamed ∧
    autoRemoveRun opts res = ([], res.err) ∧
    (refreshPlan opts).mode = ExecMode.streamed ∧
    refreshRun opts res = res.err ∧
    (cleanPlan opts).mode = ExecMode.streamed ∧
    cleanRun opts res = res.err := by
  simp [installPlan, installRun, deletePlan, deleteRun, upgradePlan, upgradeRun,
        autoRemovePlan, autoRemoveRun, refreshPlan, refreshRun, cleanPlan, cleanRun, h]

/-- C3 witness: with an interactive configuration and a successful run,
Install streams and returns no records. -/
theorem interactive_streams_no_records_witness :
    (installPlan ["vim"]
      (some { dryRun := false, interactive := true, verbose := false })).mode =
      ExecMode.streamed ∧
    installRun ["vim"] (some { dryRun := false, interactive := true, verbose := false })
      { stdout := "Setting up vim (2:9.0) ...", err := none } = ([], none) :=
  ⟨(interactive_streams_no_records ["vim"]
      (some { dryRun := false, interactive := true, verbose := false })
      { stdout := "Setting up vim (2:9.0) ...", err := none } rfl).1,
   (interactive_streams_no_records ["vim"]
      (some { dryRun := false, interactive := true, verbose := false })
      { stdout := "Setting up vim (2:9.0) ...", err := none } rfl).2.1⟩

/-- C8: every output parser is total by construction — it returns plain
records, with no error case in its type — and behaves as line-wise
matching: each parser is the line-by-line filterMap (or fold) of its line
matcher over the split input; every record any list parser produces has a
non-empty name (never half-populated); and a line its matcher rejects
(blank, banner, progress noise) is dropped: removing it from the line
list leaves the parse result unchanged. -/
theorem parsers_total_drop_malformed :
    (∀ s o, ParseInstallOutput s o = (splitLines s).filterMap parseInstallLine) ∧
    (∀ s o, ParseDeletedOutput s o = (splitLines s).filterMap parseDeleteLine) ∧
    (∀ s o, ParseFindOutput s o =
      (splitLines s).filterMap (parseSearchLine (normOpts o))) ∧
    (∀ s o, ParseListInstalledOutput s o = (splitLines s).filterMap parseInstalledLine) ∧
    (∀ s o, ParseListUpgradableOutput s o =
      (splitLines s).filterMap parseUpgradableLine) ∧
    (∀ s o, ParsePackageInfoOutput s o =
      (splitLines s).foldl applyKV { PackageInfo.zero with status := .available }) ∧
    (∀ s o r, r ∈ ParseInstallOutput s o → r.name ≠ "") ∧
    (∀ s o r, r ∈ ParseDeletedOutput s o → r.name ≠ "") ∧
    (∀ s o r, r ∈ ParseFindOutput s o → r.name ≠ "") ∧
    (∀ s o r, r ∈ ParseListInstalledOutput s o → r.name ≠ "") ∧
    (∀ s o r, r ∈ ParseListUpgradableOutput s o → r.name ≠ "") ∧
    (∀ pre post l, parseInstallLine l = none →
      (pre ++ l :: post).filterMap parseInstallLine =
        (pre ++ post).filterMap parseInstallLine) ∧
    (∀ pre post l, parseDeleteLine l = none →
      (pre ++ l :: post).filterMap parseDeleteLine =
        (pre ++ post).filterMap parseDeleteLine) ∧
    (∀ o pre post l, parseSearchLine o l = none →
      (pre ++ l :: post).filterMap (parseSearchLine o) =
        (pre ++ post).filterMap (parseSearchLine o)) ∧
    (∀ pre post l, parseInstalledLine l = none →
      (pre ++ l :: post).filterMap parseInstalledLine =
        (pre ++ post).filterMap parseInstalledLine) ∧
    (∀ pre post l, parseUpgradableLine l = none →
      (pre ++ l :: post).filterMap parseUpgradableLine =
        (pre ++ post).filterMap parseUpgradableLine) ∧
    (∀ pre post l i, kvOf l = none →
      (pre ++ l :: post).foldl applyKV i = (pre ++ post).foldl applyKV i) := by
  refine ⟨fun s o => rfl, fun s o => rfl, fun s o => rfl, fun s o => rfl, fun s o => rfl,
          fun s o => rfl, ?_, ?_, ?_, ?_, ?_,
          fun pre post l h => filterMap_drop _ pre post l h,
          fun pre post l h => filterMap_drop _ pre post l h,
          fun o pre post l h => filterMap_drop _ pre post l h,
          fun pre post l h => filterMap_drop _ pre post l h,
          fun pre post l h => filterMap_drop _ pre post l h,
          fun pre post l i h => foldl_applyKV_drop pre post l i h⟩
  · intro s o r hr
    unfold ParseInstallOutput at hr
    obtain ⟨l, _, hsome⟩ := List.mem_filterMap.mp hr
    exact parseInstallLine_name_ne hsome
  · intro s o r hr
    unfold ParseDeletedOutput at hr
    obtain ⟨l, _, hsome⟩ := List.mem_filterMap.mp hr
    exact parseDeleteLine_name_ne hsome
  · intro s o r hr
    unfold ParseFindOutput at hr
    obtain ⟨l, _, hsome⟩ := List.mem_filterMap.mp hr
    exact parseSearchLine_name_ne hsome
  · intro s o r hr
    unfold ParseListInstalledOutput at hr
    obtain ⟨l, _, hsome⟩ := List.mem_filterMap.mp hr
    exact parseInstalledLine_name_ne hsome
  · intro s o r hr
    unfold ParseListUpgradableOutput at hr
    obtain ⟨l, _, hsome⟩ := List.mem_filterMap.mp hr
    exact parseUpgradableLine_name_ne hsome

/-- C8 witness: a record parsed from a concrete installed listing has a
non-empty name; dropping a banner line from the listing, and a blank
line from an apt-cache show block, leaves the parse results unchanged. -/
theorem parsers_total_drop_malformed_witness :
    ({ name := "pkgA", version := "1.0", newVersion := "", arch := "",
       status := PackageStatus.installed, description := "" } : PackageInfo).name ≠ "" ∧
    (["pkgA 1.0", "Listing...", "pkgB 2.3"].filterMap parseInstalledLine =
      (["pkgA 1.0"] ++ ["pkgB 2.3"]).filterMap parseInstalledLine) ∧
    ((["Package: vim"] ++ "" :: ["Version: 2:9.0"]).foldl applyKV PackageInfo.zero =
      (["Package: vim"] ++ ["Version: 2:9.0"]).foldl applyKV PackageInfo.zero) :=
  ⟨parsers_total_drop_malformed.2.2.2.2.2.2.2.2.2.1 "pkgA 1.0\npkgB 2.3" none
      { name := "pkgA", version := "1.0", newVersion := "", arch := "",
        status := PackageStatus.installed, description := "" } (by decide),
   parsers_total_drop_malformed.2.2.2.2.2.2.2.2.2.2.2.2.2.2.1
      ["pkgA 1.0"] ["pkgB 2.3"] "Listing..." (by decide),
   parsers_total_drop_malformed.2.2.2.2.2.2.2.2.2.2.2.2.2.2.2.2
      ["Package: vim"] ["Version: 2:9.0"] "" PackageInfo.zero (by decide)⟩

end Syspkg
